import Mathlib

/-!
Shallow embedding of the keyboard-input translation subsystem
(`window/src/os/x11/keyboard.rs`) and of the font/text-style configuration
model (`config/src/font.rs`) of the wezterm repository, together with
theorems settling the specification claims about them.

External library calls (xkbcommon / xcb) are abstracted as parameters of an
environment structure `XkbEnv`; interior mutability (`RefCell`) in the Rust
source is rendered as explicit state passing: every operation returns the
updated `Keyboard` value alongside its result.
-/

/-- An xkb keysym (`xkb::Keysym`, a `u32`). -/
abbrev Keysym := Nat

/-- Status of the xkbcommon compose state machine
(`xkb::compose::Status`). -/
inductive ComposeStatus where
  | Nothing
  | Composing
  | Composed
  | Cancelled
deriving DecidableEq

/-- Modelled from the spec: the logical key code produced by
`keysym_to_keycode` (the `crate::KeyCode` enum lives in `window/src/lib.rs`,
which is outside the given sources). The spec says a logical key code "may be
a literal character or a named key", naming Enter, Tab and function keys; any
further named key is represented by an opaque tag. -/
inductive KeyCode where
  | Char (c : Char)
  | Enter
  | Tab
  | Function (n : Nat)
  | Other (tag : Nat)
deriving DecidableEq

/-- Modelled from the spec: the `crate::Modifiers` bitflags type (defined in
`window/src/lib.rs`, outside the given sources). The spec describes it as "a
bitset over named modifiers {SHIFT, CTRL, ALT, SUPER, ...}"; we represent the
four flags the keyboard code manipulates. -/
structure Modifiers where
  shift : Bool
  ctrl : Bool
  alt : Bool
  super : Bool
deriving DecidableEq

/-- The empty modifier set (`Modifiers::default()`). -/
def Modifiers.none : Modifiers := ⟨false, false, false, false⟩

/-- Rust `mods - Modifiers::SHIFT`: remove the SHIFT bit. -/
def Modifiers.subShift (m : Modifiers) : Modifiers := { m with shift := false }

/-- Rust `char::is_ascii_whitespace`: space, horizontal tab, line feed, form
feed or carriage return. -/
def is_ascii_whitespace (c : Char) : Bool :=
  c = ' ' || c = '\t' || c = '\n' || c = '\x0c' || c = '\r'

/-- Rust `char::is_ascii_control`: U+0000 through U+001F, or U+007F. -/
def is_ascii_control (c : Char) : Bool :=
  c.toNat ≤ 0x1f || c.toNat = 0x7f

/-- The normalized output event (`crate::KeyEvent`), with exactly the fields
the x11 keyboard code constructs. -/
structure KeyEvent where
  key : KeyCode
  modifiers : Modifiers
  raw_key : Option KeyCode
  raw_modifiers : Modifiers
  raw_code : Option Nat
  repeat_count : Nat
  key_is_down : Bool
deriving DecidableEq

/-- The raw `xcb::KeyPressEvent`: a response type byte and the physical key
code (`detail`, a `u8`). -/
structure KeyPressEvent where
  response_type : Nat
  detail : Nat
deriving DecidableEq

/-- The generic xkb event viewed through `xcb_xkb_generic_event_t`, extended
with the `StateNotifyEvent` payload fields that `update_state` reads after
the source's unsafe cast. `base_group`/`latched_group` are `i16` in the wire
format, `locked_group` a `u8`, the mod masks `u8`. -/
structure XkbGenericEvent where
  response_type : Nat
  xkb_type : Nat
  sequence : Nat
  time : Nat
  device_id : Nat
  base_mods : Nat
  latched_mods : Nat
  locked_mods : Nat
  base_group : Int
  latched_group : Int
  locked_group : Nat
deriving DecidableEq

/-- `xcb::KEY_PRESS`. -/
def XCB_KEY_PRESS : Nat := 2
/-- `xcb::xkb::STATE_NOTIFY`. -/
def XCB_XKB_STATE_NOTIFY : Nat := 2
/-- `xcb::xkb::MAP_NOTIFY`. -/
def XCB_XKB_MAP_NOTIFY : Nat := 1
/-- `xcb::xkb::NEW_KEYBOARD_NOTIFY`. -/
def XCB_XKB_NEW_KEYBOARD_NOTIFY : Nat := 0

/-- The external xkbcommon / xcb / xkeysyms API surface the keyboard code
calls, abstracted over the connection type `γ`, context type `χ`, keymap
type `κ`, state type `τ` and compose-state type `σ`. `keysym_to_keycode`
models `crate::os::xkeysyms::keysym_to_keycode`, also outside the given
sources. -/
structure XkbEnv (γ χ κ τ σ : Type) where
  key_get_one_sym : τ → Nat → Keysym
  mod_name_is_active : τ → String → Bool
  update_mask : τ → Nat → Nat → Nat → Nat → Nat → Nat → τ
  feed : σ → Keysym → σ
  status : σ → ComposeStatus
  compose_keysym : σ → Option Keysym
  reset : σ → σ
  keysym_to_keycode : Keysym → Option KeyCode
  keymap_new_from_device : χ → γ → Int → κ
  keymap_is_null : κ → Bool
  state_new_from_device : κ → γ → Int → τ
  state_is_null : τ → Bool

/-- The `Keyboard` struct from `keyboard.rs`: context, keymap, device id,
state and compose state (the `RefCell`s become plain fields under explicit
state passing). -/
structure Keyboard (χ κ τ σ : Type) where
  context : χ
  keymap : κ
  device_id : Int
  state : τ
  compose_state : σ
deriving DecidableEq

variable {γ χ κ τ σ : Type}

/-- `Keyboard::get_device_id`. -/
def get_device_id (kbd : Keyboard χ κ τ σ) : Int :=
  kbd.device_id

/-- `Keyboard::mod_is_active`. -/
def mod_is_active (env : XkbEnv γ χ κ τ σ) (kbd : Keyboard χ κ τ σ)
    (modifier : String) : Bool :=
  env.mod_name_is_active kbd.state modifier

/-- `Keyboard::get_key_modifiers`: build the modifier bitset from the named
modifier queries (`MOD_NAME_SHIFT = "Shift"`, `MOD_NAME_CTRL = "Control"`,
`MOD_NAME_ALT = "Mod1"`, `MOD_NAME_LOGO = "Mod4"`, plus `"Mod3"` which is
also mapped to SUPER). -/
def get_key_modifiers (env : XkbEnv γ χ κ τ σ) (kbd : Keyboard χ κ τ σ) :
    Modifiers :=
  let res := Modifiers.none
  let res := if mod_is_active env kbd "Shift" then { res with shift := true } else res
  let res := if mod_is_active env kbd "Control" then { res with ctrl := true } else res
  let res := if mod_is_active env kbd "Mod1" then { res with alt := true } else res
  let res := if mod_is_active env kbd "Mod4" then { res with super := true } else res
  let res := if mod_is_active env kbd "Mod3" then { res with super := true } else res
  res

/-- The compose-dispatch block of `process_key_event` (the `match cstate`
after `feed`), with the source's early `return None` rendered as a `none`
first component: returns the effective symbol (or `none` when the press is
eaten) together with the compose state left behind. -/
def compose_feed_step (env : XkbEnv γ χ κ τ σ) (cs : σ) (xsym : Keysym) :
    Option Keysym × σ :=
  let fed := env.feed cs xsym
  match env.status fed with
  | ComposeStatus.Composing => (Option.none, fed)
  | ComposeStatus.Composed =>
    ((env.compose_keysym fed).getD xsym |> Option.some, env.reset fed)
  | ComposeStatus.Nothing => (Option.some xsym, fed)
  | ComposeStatus.Cancelled => (Option.none, env.reset fed)

/-- The tail of `process_key_event` after the effective symbol `ksym` is
known: keycode mapping (with fallback to the raw symbol `xsym`), modifier
computation with the shift-suppression heuristic, and event construction. -/
def finish_key_event (env : XkbEnv γ χ κ τ σ) (kbd : Keyboard χ κ τ σ)
    (ev : KeyPressEvent) (ksym xsym : Keysym) (pressed : Bool) :
    Option KeyEvent :=
  match (env.keysym_to_keycode ksym).orElse (fun _ => env.keysym_to_keycode xsym) with
  | Option.none => Option.none
  | Option.some kc =>
    let raw_modifiers := get_key_modifiers env kbd
    let modifiers :=
      match kc with
      | KeyCode.Char c =>
        if !(is_ascii_whitespace c) && !(is_ascii_control c) then
          raw_modifiers.subShift
        else raw_modifiers
      | _ => raw_modifiers
    Option.some
      { key := kc
        modifiers := modifiers
        raw_key := Option.none
        raw_modifiers := raw_modifiers
        raw_code := Option.some ev.detail
        repeat_count := 1
        key_is_down := pressed }

/-- `Keyboard::process_key_event`, with the compose-state mutation made
explicit in the returned `Keyboard`. -/
def process_key_event (env : XkbEnv γ χ κ τ σ) (kbd : Keyboard χ κ τ σ)
    (ev : KeyPressEvent) : Option KeyEvent × Keyboard χ κ τ σ :=
  let pressed := (ev.response_type &&& 0x7f) = XCB_KEY_PRESS
  let xcode := ev.detail
  let xsym := env.key_get_one_sym kbd.state xcode
  if pressed then
    match compose_feed_step env kbd.compose_state xsym with
    | (Option.none, cs) => (Option.none, { kbd with compose_state := cs })
    | (Option.some ksym, cs) =>
      let kbd' := { kbd with compose_state := cs }
      (finish_key_event env kbd' ev ksym xsym true, kbd')
  else
    (finish_key_event env kbd ev xsym xsym false, kbd)

/-- `Keyboard::update_state`: refresh the state object's masks in place from
a `StateNotifyEvent`'s base/latched/locked fields (with the source's `i16 →
u32` and `u8 → u32` conversions). -/
def update_state (env : XkbEnv γ χ κ τ σ) (kbd : Keyboard χ κ τ σ)
    (ev : XkbGenericEvent) : Keyboard χ κ τ σ :=
  { kbd with
    state := env.update_mask kbd.state ev.base_mods ev.latched_mods
      ev.locked_mods ((ev.base_group.emod 4294967296).toNat)
      ((ev.latched_group.emod 4294967296).toNat) ev.locked_group }

/-- `Keyboard::update_keymap`: build a new keymap and a new state for the
same device, validating each against a null raw pointer; on failure return
the error with the keyboard untouched, on success replace state and keymap
together. -/
def update_keymap (env : XkbEnv γ χ κ τ σ) (kbd : Keyboard χ κ τ σ)
    (connection : γ) : Except String Unit × Keyboard χ κ τ σ :=
  let new_keymap :=
    env.keymap_new_from_device kbd.context connection (get_device_id kbd)
  if env.keymap_is_null new_keymap then
    (Except.error "problem with new keymap", kbd)
  else
    let new_state := env.state_new_from_device new_keymap connection kbd.device_id
    if env.state_is_null new_state then
      (Except.error "problem with new state", kbd)
    else
      (Except.ok (), { kbd with state := new_state, keymap := new_keymap })

/-- `Keyboard::process_xkb_event`: ignore events for other devices (the
device id comparison truncates the session's `i32` id to `u8` as the
source's `as u8` cast does), dispatch `STATE_NOTIFY` to `update_state` and
`MAP_NOTIFY`/`NEW_KEYBOARD_NOTIFY` to `update_keymap` (propagating its
error), and return `Ok(())` otherwise. -/
def process_xkb_event (env : XkbEnv γ χ κ τ σ) (kbd : Keyboard χ κ τ σ)
    (connection : γ) (event : XkbGenericEvent) :
    Except String Unit × Keyboard χ κ τ σ :=
  if event.device_id = ((get_device_id kbd).emod 256).toNat then
    if event.xkb_type = XCB_XKB_STATE_NOTIFY then
      (Except.ok (), update_state env kbd event)
    else if event.xkb_type = XCB_XKB_MAP_NOTIFY ∨
        event.xkb_type = XCB_XKB_NEW_KEYBOARD_NOTIFY then
      update_keymap env kbd connection
    else
      (Except.ok (), kbd)
  else
    (Except.ok (), kbd)

/-- Modelled from the spec: xkbcommon's `mod_name_is_active` lookup (an
external library call, not part of the given sources). The spec states that
"modifier-name lookups that do not match any known modifier are treated as
inactive rather than erroring"; we model the state's known modifiers as an
association list and return `false` on a missing name. -/
def mod_name_is_active_model (known : List (String × Bool)) (name : String) :
    Bool :=
  match known.lookup name with
  | Option.some b => b
  | Option.none => false

/-! Font / text-style configuration model (`config/src/font.rs`). Rust
strings are embedded as lists of characters. -/

/-- A Rust `String` / `&str`, embedded as its character list. -/
abbrev Str := List Char

/-- Iteration core of Rust `str::trim_end_matches`: repeatedly strip the
suffix `p` while it is a suffix of `s`. Each strip of a nonempty `p` removes
at least one character, so `s.length` steps of fuel always suffice. -/
def trim_end_loop : Nat → Str → Str → Str
  | 0, s, _ => s
  | fuel + 1, s, p =>
    if p.isSuffixOf s then trim_end_loop fuel (s.take (s.length - p.length)) p
    else s

/-- Rust `str::trim_end_matches` for a string pattern: remove all trailing
occurrences of `p` (an empty pattern removes nothing). -/
def trim_end_matches (s p : Str) : Str :=
  if p.isEmpty then s else trim_end_loop s.length s p

/-- The trailing weight/style qualifier patterns of the nested `reduce`
helper in `TextStyle::reduce_first_font_to_family`, in the source's
application order. -/
def qualifiers : List Str :=
  [" Italic".toList, " Thin".toList, " Extra Light".toList, " Normal".toList,
   " Regular".toList, " Medium".toList, " Semi Bold".toList, " Bold".toList,
   " Extra Bold".toList, " Ultra Bold".toList, " Book".toList]

/-- The nested `reduce` helper of `reduce_first_font_to_family`: the chain of
`trim_end_matches` calls, i.e. the left fold of `trim_end_matches` over the
qualifier patterns in source order. -/
def reduce (family : Str) : Str :=
  qualifiers.foldl trim_end_matches family

/-- `RgbColor` from the external termwiz crate (outside the given sources):
an opaque color value. -/
structure RgbColor where
  red : Nat
  green : Nat
  blue : Nat
deriving DecidableEq

/-- `FontAttributes` from `config/src/font.rs`. -/
structure FontAttributes where
  family : Str
  bold : Bool
  italic : Bool
  is_fallback : Bool
deriving DecidableEq

/-- `FontAttributes::new`. -/
def FontAttributes.new (family : Str) : FontAttributes :=
  { family := family, bold := false, italic := false, is_fallback := false }

/-- `FontAttributes::new_fallback`. -/
def FontAttributes.new_fallback (family : Str) : FontAttributes :=
  { family := family, bold := false, italic := false, is_fallback := true }

/-- `TextStyle` from `config/src/font.rs`. -/
structure TextStyle where
  font : List FontAttributes
  foreground : Option RgbColor
deriving DecidableEq

/-- `TextStyle::reduce_first_font_to_family`: apply `reduce` to the family
name of the first font entry only (via the enumerated map of the source). -/
def TextStyle.reduce_first_font_to_family (ts : TextStyle) : TextStyle :=
  { foreground := ts.foreground
    font := ts.font.enum.map (fun x =>
      if x.1 = 0 then { x.2 with family := reduce x.2.family } else x.2) }

/-- `TextStyle::make_bold`: set the bold flag on every font entry. -/
def TextStyle.make_bold (ts : TextStyle) : TextStyle :=
  { foreground := ts.foreground
    font := ts.font.map (fun attr => { attr with bold := true }) }

/-- `TextStyle::make_italic`: set the italic flag on every font entry. -/
def TextStyle.make_italic (ts : TextStyle) : TextStyle :=
  { foreground := ts.foreground
    font := ts.font.map (fun attr => { attr with italic := true }) }

/-! Concrete instantiation of the abstract xkb API, used to witness the
theorems below on closed inputs. The keymap and state objects are booleans
("valid handle" flags), the compose state is its own status. -/

/-- A concrete xkb environment for evaluating the model on closed inputs:
symbol 1 starts composing, symbol 2 completes a composition to symbol 42,
symbol 3 cancels, all other symbols pass through; symbols 65, 13 and 42 map
to logical key codes; only SHIFT is active when the state flag is set. -/
def testEnv : XkbEnv Unit Unit Bool Bool ComposeStatus where
  key_get_one_sym := fun _ code => code
  mod_name_is_active := fun st name => st && (name = "Shift")
  update_mask := fun _ _ _ _ _ _ _ => false
  feed := fun _ sym =>
    if sym = 1 then ComposeStatus.Composing
    else if sym = 2 then ComposeStatus.Composed
    else if sym = 3 then ComposeStatus.Cancelled
    else ComposeStatus.Nothing
  status := fun s => s
  compose_keysym := fun s =>
    if s = ComposeStatus.Composed then Option.some 42 else Option.none
  reset := fun _ => ComposeStatus.Nothing
  keysym_to_keycode := fun s =>
    if s = 65 then Option.some (KeyCode.Char 'A')
    else if s = 13 then Option.some KeyCode.Enter
    else if s = 42 then Option.some (KeyCode.Char 'b')
    else Option.none
  keymap_new_from_device := fun _ _ i => decide (0 ≤ i)
  keymap_is_null := fun k => !k
  state_new_from_device := fun k _ _ => k
  state_is_null := fun st => !st

/-- A concrete keyboard session value for the witnesses. -/
def testKbd : Keyboard Unit Bool Bool ComposeStatus :=
  { context := (), keymap := true, device_id := 3, state := true
    compose_state := ComposeStatus.Nothing }

/-- The modifier bitset read only depends on the state object, not on the
compose state. -/
theorem get_key_modifiers_compose_irrel (env : XkbEnv γ χ κ τ σ)
    (kbd : Keyboard χ κ τ σ) (cs : σ) :
    get_key_modifiers env { kbd with compose_state := cs } =
      get_key_modifiers env kbd := rfl

/-- Shape of any event emitted by the tail of `process_key_event`: the raw
modifiers are the queried bitset, and the corrected modifiers drop SHIFT
exactly on non-whitespace, non-control literal characters. -/
theorem finish_key_event_spec (env : XkbEnv γ χ κ τ σ)
    (kbd : Keyboard χ κ τ σ) (ev : KeyPressEvent) (ksym xsym : Keysym)
    (pressed : Bool) (ke : KeyEvent)
    (h : finish_key_event env kbd ev ksym xsym pressed = Option.some ke) :
    ke.raw_modifiers = get_key_modifiers env kbd ∧
    (∀ c, ke.key = KeyCode.Char c → is_ascii_whitespace c = false →
      is_ascii_control c = false → ke.modifiers = ke.raw_modifiers.subShift) ∧
    (∀ c, ke.key = KeyCode.Char c →
      (is_ascii_whitespace c = true ∨ is_ascii_control c = true) →
      ke.modifiers = ke.raw_modifiers) ∧
    ((∀ c, ke.key ≠ KeyCode.Char c) → ke.modifiers = ke.raw_modifiers) := by
  unfold finish_key_event at h
  rcases hkc : (env.keysym_to_keycode ksym).orElse
      (fun _ => env.keysym_to_keycode xsym) with _ | kc
  · rw [hkc] at h
    exact absurd h (by simp)
  · rw [hkc] at h
    simp only [Option.some.injEq] at h
    subst h
    refine ⟨rfl, ?_, ?_, ?_⟩
    · intro c hc hw hctl
      cases kc with
      | Char c2 =>
        simp only [KeyCode.Char.injEq] at hc
        subst hc
        simp [hw, hctl]
      | Enter => exact absurd hc (by simp)
      | Tab => exact absurd hc (by simp)
      | Function n => exact absurd hc (by simp)
      | Other t => exact absurd hc (by simp)
    · intro c hc hdis
      cases kc with
      | Char c2 =>
        simp only [KeyCode.Char.injEq] at hc
        subst hc
        rcases hdis with hw | hctl
        · simp [hw]
        · simp [hctl]
      | Enter => exact absurd hc (by simp)
      | Tab => exact absurd hc (by simp)
      | Function n => exact absurd hc (by simp)
      | Other t => exact absurd hc (by simp)
    · intro hne
      cases kc with
      | Char c2 => exact absurd rfl (hne c2)
      | Enter => rfl
      | Tab => rfl
      | Function n => rfl
      | Other t => rfl

/-- C1: every event emitted by `process_key_event` carries the raw modifier
bitset, and its corrected modifiers equal the raw ones with SHIFT removed
when the resolved logical key is a literal character that is neither ASCII
whitespace nor an ASCII control character, and equal the raw ones unchanged
for every other resolved key. -/
theorem keyboard_shift_correction (env : XkbEnv γ χ κ τ σ)
    (kbd kbd' : Keyboard χ κ τ σ) (ev : KeyPressEvent) (ke : KeyEvent)
    (h : process_key_event env kbd ev = (Option.some ke, kbd')) :
    ke.raw_modifiers = get_key_modifiers env kbd ∧
    (∀ c, ke.key = KeyCode.Char c → is_ascii_whitespace c = false →
      is_ascii_control c = false → ke.modifiers = ke.raw_modifiers.subShift) ∧
    (∀ c, ke.key = KeyCode.Char c →
      (is_ascii_whitespace c = true ∨ is_ascii_control c = true) →
      ke.modifiers = ke.raw_modifiers) ∧
    ((∀ c, ke.key ≠ KeyCode.Char c) → ke.modifiers = ke.raw_modifiers) := by
  unfold process_key_event at h
  by_cases hp : (ev.response_type &&& 0x7f) = XCB_KEY_PRESS
  · simp only [hp, if_true] at h
    rcases hstep : compose_feed_step env kbd.compose_state
        (env.key_get_one_sym kbd.state ev.detail) with ⟨r, cs⟩
    rw [hstep] at h
    cases r with
    | none => exact absurd h (by simp)
    | some ksym =>
      simp only [Prod.mk.injEq] at h
      have hfin := finish_key_event_spec env { kbd with compose_state := cs }
        ev ksym (env.key_get_one_sym kbd.state ev.detail) true ke h.1
      rw [get_key_modifiers_compose_irrel] at hfin
      exact hfin
  · simp only [hp, if_false] at h
    simp only [Prod.mk.injEq] at h
    exact finish_key_event_spec env kbd ev
      (env.key_get_one_sym kbd.state ev.detail)
      (env.key_get_one_sym kbd.state ev.detail) false ke h.1

/-- The event produced by pressing key 65 (Shift held) in the concrete test
environment: logical key `Char 'A'`, raw modifiers {SHIFT}, corrected
modifiers empty. -/
def testKe : KeyEvent :=
  { key := KeyCode.Char 'A'
    modifiers := ⟨false, false, false, false⟩
    raw_key := Option.none
    raw_modifiers := ⟨true, false, false, false⟩
    raw_code := Option.some 65
    repeat_count := 1
    key_is_down := true }

/-- Witness for C1 on a closed input: the Shift+Char press in the test
environment yields raw modifiers {SHIFT} and corrected modifiers with SHIFT
removed. -/
theorem keyboard_shift_correction_witness :
    testKe.raw_modifiers = get_key_modifiers testEnv testKbd ∧
    testKe.modifiers = testKe.raw_modifiers.subShift :=
  ⟨(keyboard_shift_correction testEnv testKbd testKbd ⟨2, 65⟩ testKe
      (by decide)).1,
   (keyboard_shift_correction testEnv testKbd testKbd ⟨2, 65⟩ testKe
      (by decide)).2.1 'A' rfl (by decide) (by decide)⟩

/-- C2: on a press, the outcome of `process_key_event` is dispatched on the
compose machine's status after feeding the resolved symbol: `Composing`
swallows the press, `Cancelled` resets and swallows, `Composed` substitutes
the composed symbol (falling back to the resolved symbol) and resets, and
`Nothing` passes the resolved symbol through with the fed state kept. -/
theorem compose_status_dispatch (env : XkbEnv γ χ κ τ σ)
    (kbd : Keyboard χ κ τ σ) (ev : KeyPressEvent) (xsym : Keysym) (fed : σ)
    (hp : (ev.response_type &&& 0x7f) = XCB_KEY_PRESS)
    (hx : xsym = env.key_get_one_sym kbd.state ev.detail)
    (hf : fed = env.feed kbd.compose_state xsym) :
    (env.status fed = ComposeStatus.Composing →
      process_key_event env kbd ev =
        (Option.none, { kbd with compose_state := fed })) ∧
    (env.status fed = ComposeStatus.Cancelled →
      process_key_event env kbd ev =
        (Option.none, { kbd with compose_state := env.reset fed })) ∧
    (env.status fed = ComposeStatus.Composed →
      process_key_event env kbd ev =
        (finish_key_event env { kbd with compose_state := env.reset fed } ev
          ((env.compose_keysym fed).getD xsym) xsym true,
         { kbd with compose_state := env.reset fed })) ∧
    (env.status fed = ComposeStatus.Nothing →
      process_key_event env kbd ev =
        (finish_key_event env { kbd with compose_state := fed } ev xsym xsym
          true,
         { kbd with compose_state := fed })) := by
  subst hx
  subst hf
  refine ⟨?_, ?_, ?_, ?_⟩ <;> intro hs <;>
    simp [process_key_event, compose_feed_step, hp, hs]

/-- Witness for C2 on a closed input: pressing the completing symbol 2 in
the test environment substitutes the composed symbol 42 and resets the
machine. -/
theorem compose_status_dispatch_witness :
    process_key_event testEnv testKbd ⟨2, 2⟩ =
      (finish_key_event testEnv
        { testKbd with compose_state := ComposeStatus.Nothing } ⟨2, 2⟩ 42 2
        true,
       { testKbd with compose_state := ComposeStatus.Nothing }) :=
  (compose_status_dispatch testEnv testKbd ⟨2, 2⟩ 2 ComposeStatus.Composed
    (by decide) rfl (by decide)).2.2.1 (by decide)

/-- C6: when neither the effective (possibly composed) symbol nor the
originally resolved symbol maps to a logical key code, `process_key_event`
returns `none` rather than an error. -/
theorem unmapped_keysym_dropped (env : XkbEnv γ χ κ τ σ)
    (kbd : Keyboard χ κ τ σ) (ev : KeyPressEvent) (xsym eff : Keysym)
    (hx : xsym = env.key_get_one_sym kbd.state ev.detail)
    (heff : eff = (if (ev.response_type &&& 0x7f) = XCB_KEY_PRESS then
      (compose_feed_step env kbd.compose_state xsym).1.getD xsym else xsym))
    (h1 : env.keysym_to_keycode eff = Option.none)
    (h2 : env.keysym_to_keycode xsym = Option.none) :
    (process_key_event env kbd ev).1 = Option.none := by
  subst hx
  by_cases hp : (ev.response_type &&& 0x7f) = XCB_KEY_PRESS
  · simp only [hp, if_true] at heff
    unfold process_key_event
    simp only [hp, if_true]
    rcases hstep : compose_feed_step env kbd.compose_state
        (env.key_get_one_sym kbd.state ev.detail) with ⟨r, cs⟩
    cases r with
    | none => rfl
    | some ksym =>
      rw [hstep] at heff
      simp only [Option.getD_some] at heff
      subst heff
      simp [finish_key_event, h1, h2, Option.orElse]
  · simp only [hp, if_false] at heff
    subst heff
    unfold process_key_event
    simp only [hp, if_false]
    simp [finish_key_event, h1, h2, Option.orElse]

/-- Witness for C6 on a closed input: key 7 resolves to symbol 7, which has
no logical key code mapping, so the press is dropped. -/
theorem unmapped_keysym_dropped_witness :
    (process_key_event testEnv testKbd ⟨2, 7⟩).1 = Option.none :=
  unmapped_keysym_dropped testEnv testKbd ⟨2, 7⟩ 7 7 rfl (by decide)
    (by decide) (by decide)

/-- C7: a release never consults the compose machine: the session is
returned unchanged, the directly resolved symbol is used for the output
event, and the output does not depend on the compose state at all. -/
theorem release_ignores_compose (env : XkbEnv γ χ κ τ σ)
    (kbd : Keyboard χ κ τ σ) (ev : KeyPressEvent)
    (hp : (ev.response_type &&& 0x7f) ≠ XCB_KEY_PRESS) :
    process_key_event env kbd ev =
      (finish_key_event env kbd ev (env.key_get_one_sym kbd.state ev.detail)
        (env.key_get_one_sym kbd.state ev.detail) false, kbd) ∧
    (∀ cs : σ, (process_key_event env { kbd with compose_state := cs } ev).1 =
      (process_key_event env kbd ev).1) := by
  constructor
  · simp [process_key_event, hp]
  · intro cs
    simp [process_key_event, hp]
    rfl

/-- Witness for C7 on a closed input: releasing key 65 leaves the session
untouched and ignores the compose state. -/
theorem release_ignores_compose_witness :
    process_key_event testEnv testKbd ⟨3, 65⟩ =
      (finish_key_event testEnv testKbd ⟨3, 65⟩
        (testEnv.key_get_one_sym testKbd.state 65)
        (testEnv.key_get_one_sym testKbd.state 65) false, testKbd) ∧
    (∀ cs, (process_key_event testEnv
        { testKbd with compose_state := cs } ⟨3, 65⟩).1 =
      (process_key_event testEnv testKbd ⟨3, 65⟩).1) :=
  release_ignores_compose testEnv testKbd ⟨3, 65⟩ (by decide)

/-- C3: `update_keymap` validates the new keymap and the new state; on a
validation failure it returns the corresponding error with the session's
keymap and state left exactly as they were, and on success it replaces both
together as a pair. -/
theorem update_keymap_validation (env : XkbEnv γ χ κ τ σ)
    (kbd : Keyboard χ κ τ σ) (connection : γ) (nk : κ) (ns : τ)
    (hnk : nk = env.keymap_new_from_device kbd.context connection
      (get_device_id kbd))
    (hns : ns = env.state_new_from_device nk connection kbd.device_id) :
    (env.keymap_is_null nk = true →
      update_keymap env kbd connection =
        (Except.error "problem with new keymap", kbd)) ∧
    (env.keymap_is_null nk = false → env.state_is_null ns = true →
      update_keymap env kbd connection =
        (Except.error "problem with new state", kbd)) ∧
    (env.keymap_is_null nk = false → env.state_is_null ns = false →
      update_keymap env kbd connection =
        (Except.ok (), { kbd with keymap := nk, state := ns })) := by
  subst hnk
  subst hns
  refine ⟨?_, ?_, ?_⟩
  · intro h1
    simp [update_keymap, h1]
  · intro h1 h2
    simp [update_keymap, h1, h2]
  · intro h1 h2
    simp [update_keymap, h1, h2]

/-- Witness for C3 on a closed input: a session whose device id resolves to
an invalid (null) keymap handle gets the keymap error back with the session
value unchanged. -/
theorem update_keymap_validation_witness :
    update_keymap testEnv { testKbd with device_id := -1 } () =
      (Except.error "problem with new keymap",
       { testKbd with device_id := -1 }) :=
  (update_keymap_validation testEnv { testKbd with device_id := -1 } ()
    false false (by decide) (by decide)).1 (by decide)

/-- C4: a generic xkb protocol event whose device identifier differs from
the session's (truncated to a byte) is ignored: the session is returned
entirely unchanged and the result is success. -/
theorem other_device_event_ignored (env : XkbEnv γ χ κ τ σ)
    (kbd : Keyboard χ κ τ σ) (connection : γ) (event : XkbGenericEvent)
    (hdev : event.device_id ≠ ((get_device_id kbd).emod 256).toNat) :
    process_xkb_event env kbd connection event = (Except.ok (), kbd) := by
  simp [process_xkb_event, hdev]

/-- Witness for C4 on a closed input: an event for device 5 is ignored by
the session owning device 3. -/
theorem other_device_event_ignored_witness :
    process_xkb_event testEnv testKbd ()
      ⟨0, XCB_XKB_STATE_NOTIFY, 0, 0, 5, 0, 0, 0, 0, 0, 0⟩ =
      (Except.ok (), testKbd) :=
  other_device_event_ignored testEnv testKbd ()
    ⟨0, XCB_XKB_STATE_NOTIFY, 0, 0, 5, 0, 0, 0, 0, 0, 0⟩ (by decide)

/-- C5: a keymap reload never touches the compose state machine, whether it
succeeds or fails. -/
theorem update_keymap_preserves_compose (env : XkbEnv γ χ κ τ σ)
    (kbd : Keyboard χ κ τ σ) (connection : γ) :
    ((update_keymap env kbd connection).2).compose_state =
      kbd.compose_state := by
  simp only [update_keymap]
  split_ifs <;> rfl

/-- C8: `get_key_modifiers` is exactly the raw bitset of the effective named
modifier queries — SHIFT from "Shift", CTRL from "Control", ALT from "Mod1",
SUPER from "Mod4" or "Mod3" — with no correction heuristic; and in the
spec-modelled library lookup, a name matching no known modifier reads as
inactive rather than erroring. -/
theorem raw_modifier_bitset (env : XkbEnv γ χ κ τ σ)
    (kbd : Keyboard χ κ τ σ) :
    get_key_modifiers env kbd =
      { shift := env.mod_name_is_active kbd.state "Shift"
        ctrl := env.mod_name_is_active kbd.state "Control"
        alt := env.mod_name_is_active kbd.state "Mod1"
        super := env.mod_name_is_active kbd.state "Mod4" ||
          env.mod_name_is_active kbd.state "Mod3" } ∧
    (∀ (known : List (String × Bool)) (name : String),
      known.lookup name = Option.none →
      mod_name_is_active_model known name = false) := by
  constructor
  · unfold get_key_modifiers mod_is_active Modifiers.none
    cases h1 : env.mod_name_is_active kbd.state "Shift" <;>
      cases h2 : env.mod_name_is_active kbd.state "Control" <;>
      cases h3 : env.mod_name_is_active kbd.state "Mod1" <;>
      cases h4 : env.mod_name_is_active kbd.state "Mod4" <;>
      cases h5 : env.mod_name_is_active kbd.state "Mod3" <;>
      simp
  · intro known name h
    simp [mod_name_is_active_model, h]

/-- Witness for C8 on a closed input: the test state reports SHIFT only, and
the unknown name "Hyper" reads as inactive in the modelled lookup. -/
theorem raw_modifier_bitset_witness :
    get_key_modifiers testEnv testKbd =
      { shift := testEnv.mod_name_is_active testKbd.state "Shift"
        ctrl := testEnv.mod_name_is_active testKbd.state "Control"
        alt := testEnv.mod_name_is_active testKbd.state "Mod1"
        super := testEnv.mod_name_is_active testKbd.state "Mod4" ||
          testEnv.mod_name_is_active testKbd.state "Mod3" } ∧
    mod_name_is_active_model [("Shift", true)] "Hyper" = false :=
  ⟨(raw_modifier_bitset testEnv testKbd).1,
   (raw_modifier_bitset testEnv testKbd).2 [("Shift", true)] "Hyper"
     (by decide)⟩

/-- Unfolding step of the trim loop when the pattern is a suffix. -/
theorem trim_end_loop_succ (fuel : Nat) (s p : Str)
    (h : p.isSuffixOf s = true) :
    trim_end_loop (fuel + 1) s p =
      trim_end_loop fuel (s.take (s.length - p.length)) p := by
  simp [trim_end_loop, h]

/-- The trim loop is the identity when the pattern is not a suffix. -/
theorem trim_end_loop_no_suffix (fuel : Nat) (s p : Str)
    (h : p.isSuffixOf s = false) : trim_end_loop fuel s p = s := by
  cases fuel with
  | zero => rfl
  | succ n => simp [trim_end_loop, h]

/-- `trim_end_matches` is the identity when the pattern is not a suffix. -/
theorem trim_no_suffix (s p : Str) (h : p.isSuffixOf s = false) :
    trim_end_matches s p = s := by
  unfold trim_end_matches
  split
  · rfl
  · exact trim_end_loop_no_suffix _ _ _ h

/-- Any fuel of at least the string's length computes `trim_end_matches`:
each strip of a nonempty pattern removes at least one character. -/
theorem trim_end_loop_fuel (p : Str) (hp : p ≠ []) :
    ∀ (fuel : Nat) (s : Str), s.length ≤ fuel →
      trim_end_loop fuel s p = trim_end_matches s p := by
  intro fuel
  induction fuel using Nat.strong_induction_on with
  | _ fuel ih =>
    intro s hs
    cases fuel with
    | zero =>
      have hnil : s = [] := List.length_eq_zero.mp (Nat.le_zero.mp hs)
      subst hnil
      unfold trim_end_matches
      split
      · rfl
      · rfl
    | succ n =>
      cases hsf : p.isSuffixOf s with
      | false =>
        rw [trim_end_loop_no_suffix _ _ _ hsf, trim_no_suffix _ _ hsf]
      | true =>
        have hsuf : p <:+ s := List.isSuffixOf_iff_suffix.mp hsf
        have hple : p.length ≤ s.length := hsuf.length_le
        have hppos : 0 < p.length := List.length_pos.mpr hp
        have hlen : (s.take (s.length - p.length)).length =
            s.length - p.length := by
          rw [List.length_take]
          exact Nat.min_eq_left (Nat.sub_le _ _)
        have hstep : trim_end_matches s p =
            trim_end_matches (s.take (s.length - p.length)) p := by
          calc trim_end_matches s p
              = trim_end_loop s.length s p := by
                rw [trim_end_matches, if_neg (by simp [hp])]
            _ = trim_end_loop ((s.length - 1) + 1) s p := by
                congr 1
                omega
            _ = trim_end_loop (s.length - 1)
                (s.take (s.length - p.length)) p :=
                trim_end_loop_succ _ _ _ hsf
            _ = trim_end_matches (s.take (s.length - p.length)) p := by
                apply ih (s.length - 1) (by omega)
                rw [hlen]
                omega
        calc trim_end_loop (n + 1) s p
            = trim_end_loop n (s.take (s.length - p.length)) p :=
              trim_end_loop_succ _ _ _ hsf
          _ = trim_end_matches (s.take (s.length - p.length)) p := by
              apply ih n (by omega)
              rw [hlen]
              omega
          _ = trim_end_matches s p := hstep.symm

/-- Stripping one trailing occurrence: trimming `p` off `a ++ p` is the same
as trimming `p` off `a`. -/
theorem trim_append (a p : Str) (hp : p ≠ []) :
    trim_end_matches (a ++ p) p = trim_end_matches a p := by
  have hsf : p.isSuffixOf (a ++ p) = true :=
    List.isSuffixOf_iff_suffix.mpr (List.suffix_append a p)
  have hppos : 0 < p.length := List.length_pos.mpr hp
  have htake : (a ++ p).take ((a ++ p).length - p.length) = a := by
    rw [List.length_append, Nat.add_sub_cancel]
    exact List.take_left a p
  calc trim_end_matches (a ++ p) p
      = trim_end_loop ((a ++ p).length) (a ++ p) p := by
        rw [trim_end_matches, if_neg (by simp [hp])]
    _ = trim_end_loop (((a ++ p).length - 1) + 1) (a ++ p) p := by
        congr 1
        rw [List.length_append]
        omega
    _ = trim_end_loop ((a ++ p).length - 1)
        ((a ++ p).take ((a ++ p).length - p.length)) p :=
        trim_end_loop_succ _ _ _ hsf
    _ = trim_end_loop ((a ++ p).length - 1) a p := by rw [htake]
    _ = trim_end_matches a p := by
        apply trim_end_loop_fuel p hp
        rw [List.length_append]
        omega

/-- A fold of `trim_end_matches` over patterns none of which is a suffix is
the identity. -/
theorem foldl_trim_no_suffix (L : List Str) (s : Str)
    (h : ∀ p ∈ L, p.isSuffixOf s = false) :
    L.foldl trim_end_matches s = s := by
  induction L with
  | nil => rfl
  | cons p L ih =>
    simp only [List.foldl_cons]
    rw [trim_no_suffix s p (h p (List.mem_cons_self p L))]
    exact ih fun q hq => h q (List.mem_cons_of_mem p hq)

/-- Folding the trim chain `A ++ q :: B` over `bare ++ q` yields `bare`,
provided no pattern of `A` matches the full name, `q` does not repeat at the
end of `bare`, and no pattern of `B` matches `bare`. -/
theorem foldl_trim_strip (A B : List Str) (q bare : Str) (hq : q ≠ [])
    (hA : ∀ p ∈ A, p.isSuffixOf (bare ++ q) = false)
    (hself : q.isSuffixOf bare = false)
    (hB : ∀ p ∈ B, p.isSuffixOf bare = false) :
    (A ++ q :: B).foldl trim_end_matches (bare ++ q) = bare := by
  rw [List.foldl_append, foldl_trim_no_suffix A _ hA]
  simp only [List.foldl_cons]
  rw [trim_append bare q hq, trim_no_suffix bare q hself]
  exact foldl_trim_no_suffix B bare hB

/-- The enumerated map of `reduce_first_font_to_family` leaves every entry
with a nonzero index unchanged. -/
theorem enumFrom_map_preserve (f : FontAttributes → FontAttributes) :
    ∀ (n : Nat) (l : List FontAttributes), n ≠ 0 →
      (List.enumFrom n l).map
        (fun x => if x.1 = 0 then f x.2 else x.2) = l := by
  intro n l
  induction l generalizing n with
  | nil => intro _; rfl
  | cons a l ih =>
    intro hn
    simp only [List.enumFrom, List.map_cons]
    rw [if_neg hn, ih (n + 1) (by omega)]

/-- On a nonempty font list, `reduce_first_font_to_family` rewrites exactly
the first entry's family through `reduce` and keeps the rest. -/
theorem reduce_first_cons (a : FontAttributes) (rest : List FontAttributes)
    (fg : Option RgbColor) :
    TextStyle.reduce_first_font_to_family ⟨a :: rest, fg⟩ =
      ⟨{ a with family := reduce a.family } :: rest, fg⟩ := by
  unfold TextStyle.reduce_first_font_to_family
  simp only [TextStyle.mk.injEq]
  refine ⟨?_, trivial⟩
  have henum : List.enum (a :: rest) = (0, a) :: List.enumFrom 1 rest := rfl
  rw [henum]
  simp only [List.map_cons]
  simp only [if_true]
  rw [enumFrom_map_preserve
    (fun b => { b with family := reduce b.family }) 1 rest (by omega)]

/-- Counterexample to C9 as stated: the family name "Foo Extra Bold" ends in
the recognized qualifier "Extra Bold", but `reduce_first_font_to_family`
leaves "Foo Extra", not the bare family name "Foo" — the chain strips the
trailing " Bold" first, after which " Extra Bold" no longer matches. -/
theorem reduce_family_extra_bold_counterexample :
    (TextStyle.reduce_first_font_to_family
      ⟨[⟨"Foo Extra Bold".toList, false, false, false⟩],
        Option.none⟩).font =
      [⟨"Foo Extra".toList, false, false, false⟩] ∧
    "Foo Extra".toList ≠ "Foo".toList := by
  constructor
  · decide
  · decide

/-- C9 amended: for a first-entry family name `bare ++ q` with `q` a
recognized qualifier, `reduce_first_font_to_family` strips exactly `q`
(leaving `bare`, with all other entries and the foreground unchanged)
provided no qualifier earlier in the chain matches the end of the full name,
`q` does not repeat at the end of `bare`, and no later qualifier matches the
end of `bare`. Names ending in " Extra Bold" or " Ultra Bold" necessarily
violate the first proviso (" Bold" precedes them in the chain), so for them
only the trailing " Bold" is stripped. -/
theorem reduce_family_strips_qualifier (ts : TextStyle)
    (a : FontAttributes) (rest : List FontAttributes) (bare q : Str)
    (A B : List Str)
    (hfont : ts.font = a :: rest)
    (hfam : a.family = bare ++ q)
    (hchain : qualifiers = A ++ q :: B)
    (hq : q ≠ [])
    (hA : ∀ p ∈ A, p.isSuffixOf (bare ++ q) = false)
    (hself : q.isSuffixOf bare = false)
    (hB : ∀ p ∈ B, p.isSuffixOf bare = false) :
    (ts.reduce_first_font_to_family).font =
      { a with family := bare } :: rest ∧
    (ts.reduce_first_font_to_family).foreground = ts.foreground := by
  obtain ⟨font, fg⟩ := ts
  change font = a :: rest at hfont
  subst hfont
  rw [reduce_first_cons a rest fg]
  refine ⟨?_, rfl⟩
  show { a with family := reduce a.family } :: rest =
    { a with family := bare } :: rest
  have hred : reduce a.family = bare := by
    rw [hfam]
    unfold reduce
    rw [hchain]
    exact foldl_trim_strip A B q bare hq hA hself hB
  rw [hred]

/-- Witness for the amended C9 on a closed input: "Foo Italic" reduces to
the bare family "Foo". -/
theorem reduce_family_strips_qualifier_witness :
    (TextStyle.reduce_first_font_to_family
      ⟨[⟨"Foo Italic".toList, false, false, false⟩], Option.none⟩).font =
      [⟨"Foo".toList, false, false, false⟩] ∧
    (TextStyle.reduce_first_font_to_family
      ⟨[⟨"Foo Italic".toList, false, false, false⟩],
        Option.none⟩).foreground = Option.none :=
  reduce_family_strips_qualifier
    ⟨[⟨"Foo Italic".toList, false, false, false⟩], Option.none⟩
    ⟨"Foo Italic".toList, false, false, false⟩ [] "Foo".toList
    " Italic".toList []
    [" Thin".toList, " Extra Light".toList, " Normal".toList,
     " Regular".toList, " Medium".toList, " Semi Bold".toList,
     " Bold".toList, " Extra Bold".toList, " Ultra Bold".toList,
     " Book".toList]
    rfl (by decide) (by decide) (by decide) (by simp) (by decide) (by decide)

/-- C10: `make_bold` and `make_italic` keep the foreground color and the
font list's length and order, and change each entry only by setting the
bold (respectively italic) flag to `true`; family, `is_fallback` and the
other flag are untouched. -/
theorem make_bold_italic_frame (ts : TextStyle) :
    (ts.make_bold).foreground = ts.foreground ∧
    (ts.make_bold).font.length = ts.font.length ∧
    (∀ i : Nat, (ts.make_bold).font[i]? =
      (ts.font[i]?).map (fun a => { a with bold := true })) ∧
    (ts.make_italic).foreground = ts.foreground ∧
    (ts.make_italic).font.length = ts.font.length ∧
    (∀ i : Nat, (ts.make_italic).font[i]? =
      (ts.font[i]?).map (fun a => { a with italic := true })) := by
  refine ⟨rfl, by simp [TextStyle.make_bold], ?_, rfl,
    by simp [TextStyle.make_italic], ?_⟩ <;>
    intro i <;>
    simp [TextStyle.make_bold, TextStyle.make_italic]
